import Mathlib

/-!
Shallow embedding of the `kOmegaSSTLowRe` incompressible k–ω-SST low-Re
turbulence-model closure declared in `kOmegaSSTLowRe.H`.

All field arithmetic is modelled over exact ordered fields (`ℚ` where the
operations are rational, `ℝ` where `sqrt`/`tanh` appear); a per-cell scalar
field is a function `ℕ → ℚ` from cell index to value.  Member functions whose
bodies live in the header (`blend`, `betaI`, `beta`, `sigmaK`, `sigmaOmega`,
`alphaInf`, `DkEff`, `DomegaEff`, `epsilon`, `k`, `omega`) are translated
directly from it; member functions only declared there (`correctNut`,
`correct`, `read`, `F1`, `F2`, `F3`, `F23`, whose bodies are in the absent
`kOmegaSSTLowRe.C`) are modelled from the specification, as marked on each
definition.
-/

namespace KOmegaSSTLowRe

/-- The model coefficients, mirroring the protected `dimensionedScalar`
members (and the `Switch F3_`) of class `kOmegaSSTLowRe` in
`kOmegaSSTLowRe.H`. -/
structure Coeffs (K : Type) where
  betaInf_ : K
  beta1_ : K
  beta2_ : K
  RBeta_ : K
  RK_ : K
  ROmega_ : K
  betaStarInf_ : K
  alphaStarInf_ : K
  kappa_ : K
  sigmaOmega1_ : K
  sigmaOmega2_ : K
  sigmaK1_ : K
  sigmaK2_ : K
  alphaZero_ : K
  a1_ : K
  b1_ : K
  c1_ : K
  F3_ : Bool
  deriving DecidableEq

variable {K : Type} [LinearOrderedField K]

/-- The generic per-cell blend operator from `kOmegaSSTLowRe.H`:
`blend(F1, psi1, psi2) = F1*(psi1 - psi2) + psi2`. -/
def blend (F1v psi1 psi2 : K) : K :=
  F1v * (psi1 - psi2) + psi2

/-- `betaI` from `kOmegaSSTLowRe.H`: `blend(F1, beta1_, beta2_)`. -/
def betaI (c : Coeffs K) (F1v : K) : K :=
  blend F1v c.beta1_ c.beta2_

/-- `beta` from `kOmegaSSTLowRe.H`: the incompressible version returns
`betaI(F1)` unchanged. -/
def beta (c : Coeffs K) (F1v : K) : K :=
  betaI c F1v

/-- `sigmaK` from `kOmegaSSTLowRe.H`: `1.0 / blend(F1, 1.0/sigmaK1_, 1.0/sigmaK2_)`. -/
def sigmaK (c : Coeffs K) (F1v : K) : K :=
  1 / blend F1v (1 / c.sigmaK1_) (1 / c.sigmaK2_)

/-- `sigmaOmega` from `kOmegaSSTLowRe.H`:
`1.0 / blend(F1, 1.0/sigmaOmega1_, 1.0/sigmaOmega2_)`. -/
def sigmaOmega (c : Coeffs K) (F1v : K) : K :=
  1 / blend F1v (1 / c.sigmaOmega1_) (1 / c.sigmaOmega2_)

/-- `DkEff` from `kOmegaSSTLowRe.H`: `(nut_ / sigmaK(F1)) + nu`, per cell. -/
def DkEff (c : Coeffs K) (nutv nuv F1v : K) : K :=
  nutv / sigmaK c F1v + nuv

/-- `DomegaEff` from `kOmegaSSTLowRe.H`: `(nut_ / sigmaOmega(F1)) + nu`, per cell. -/
def DomegaEff (c : Coeffs K) (nutv nuv F1v : K) : K :=
  nutv / sigmaOmega c F1v + nuv

/-- `alphaInf` from `kOmegaSSTLowRe.H`:
`blend(F1, beta1_/betaStarInf_ - sqr(kappa_)/(sigmaOmega1_*sqrt(betaStarInf_)),
          beta2_/betaStarInf_ - sqr(kappa_)/(sigmaOmega2_*sqrt(betaStarInf_)))`. -/
noncomputable def alphaInf (c : Coeffs ℝ) (F1v : ℝ) : ℝ :=
  blend F1v
    (c.beta1_ / c.betaStarInf_ - c.kappa_ ^ 2 / (c.sigmaOmega1_ * Real.sqrt c.betaStarInf_))
    (c.beta2_ / c.betaStarInf_ - c.kappa_ ^ 2 / (c.sigmaOmega2_ * Real.sqrt c.betaStarInf_))

/-- Modelled from the spec: the body of `correctNut` is only declared in
`kOmegaSSTLowRe.H` (its definition is in the absent `kOmegaSSTLowRe.C`).
Spec §4.3 (ViscosityLimiter): `νt = a1·k / max(a1·ω, b1·F23·S)`, per cell. -/
def nut (c : Coeffs K) (k omega F23v S : K) : K :=
  c.a1_ * k / max (c.a1_ * omega) (c.b1_ * F23v * S)

/-- Modelled from the spec: the body of `F1` is only declared in
`kOmegaSSTLowRe.H`.  Spec §4.1: `F1 = tanh(arg1⁴)` with
`arg1 = min( max( √k/(β*∞·ω·y), 500ν/(y²ω) ), 4σω2·k / (max(CDkω, 10⁻¹⁰)·y²) )`. -/
noncomputable def F1 (c : Coeffs ℝ) (k omega y nu CDkOmega : ℝ) : ℝ :=
  Real.tanh
    ((min
        (max (Real.sqrt k / (c.betaStarInf_ * omega * y)) (500 * nu / (y ^ 2 * omega)))
        (4 * c.sigmaOmega2_ * k / (max CDkOmega (1 / 10 ^ 10) * y ^ 2))) ^ 4)

/-- Modelled from the spec: the body of `F2` is only declared in
`kOmegaSSTLowRe.H`.  Spec §4.1: `F2 = tanh(arg2²)` with
`arg2 = max( 2√k/(β*∞·ω·y), 500ν/(y²ω) )`. -/
noncomputable def F2 (c : Coeffs ℝ) (k omega y nu : ℝ) : ℝ :=
  Real.tanh
    ((max (2 * Real.sqrt k / (c.betaStarInf_ * omega * y)) (500 * nu / (y ^ 2 * omega))) ^ 2)

/-- Modelled from the spec: the body of `F3` is only declared in
`kOmegaSSTLowRe.H`.  Spec §4.1 describes it as the Hellsten (1998) rough-wall
term suppressing F1 near rough walls from a wall-distance/ω-based argument;
the cited SST implementation computes `F3 = 1 - tanh((min(150ν/(ωy²), 10))⁴)`. -/
noncomputable def F3 (omega y nu : ℝ) : ℝ :=
  1 - Real.tanh ((min (150 * nu / (omega * y ^ 2)) 10) ^ 4)

/-- Modelled from the spec: the body of `F23` is only declared in
`kOmegaSSTLowRe.H`.  Spec §4.1: `F23 = max(F2, F3)` when the rough-wall flag
is enabled, else `F23 = F2`. -/
noncomputable def F23 (c : Coeffs ℝ) (k omega y nu : ℝ) : ℝ :=
  if c.F3_ then max (F2 c k omega y nu) (F3 omega y nu) else F2 c k omega y nu

/-- The mutable state of one model instance: its coefficient set and the
owned per-cell fields `k_`, `omega_` and `nut_` (cf. the protected data of
class `kOmegaSSTLowRe`). -/
structure ModelState where
  coeffs : Coeffs ℚ
  k_ : ℕ → ℚ
  omega_ : ℕ → ℚ
  nut_ : ℕ → ℚ

/-- `epsilon()` from `kOmegaSSTLowRe.H`: a `const` accessor building the field
`0.09*k_*omega_` (flagged in the source as "not SST version").  Being `const`,
it cannot mutate the members, which the state-passing embedding renders by
returning the state unchanged alongside the field. -/
def epsilon (s : ModelState) : (ℕ → ℚ) × ModelState :=
  (fun i => 9 / 100 * s.k_ i * s.omega_ i, s)

/-- The per-step inputs of one `correct()` call that come from outside the
closure: the fields returned by the external linear solver for the ω- and
k-transport equations, and the strain magnitude and recomputed F23 factor
entering the viscosity limiter. -/
structure CorrectInputs where
  omegaSol : ℕ → ℚ
  kSol : ℕ → ℚ
  F23val : ℕ → ℚ
  S : ℕ → ℚ

/-- Modelled from the spec: the body of `correct()` is only declared in
`kOmegaSSTLowRe.H`.  Spec §4.4: solve the ω equation and clip the result to a
positive floor, then solve the k equation and clip, then recompute νt via the
ViscosityLimiter.  The external solves are inputs; the clipping floors
(`small positive floor`, §3) are parameters. -/
def correct (omegaMin kMin : ℚ) (s : ModelState) (ext : CorrectInputs) : ModelState :=
  let omegaNew := fun i => max (ext.omegaSol i) omegaMin
  let kNew := fun i => max (ext.kSol i) kMin
  { s with
    omega_ := omegaNew
    k_ := kNew
    nut_ := fun i => nut s.coeffs (kNew i) (omegaNew i) (ext.F23val i) (ext.S i) }

/-- Modelled from the spec: the body of `read()` is only declared in
`kOmegaSSTLowRe.H`.  Spec §4.4/§8: `read()` re-parses the coefficient
configuration (here: the already-parsed coefficient set `cfg` supplied by the
configuration collaborator), returns whether any coefficient changed, and
never touches k, ω or νt. -/
def read (cfg : Coeffs ℚ) (s : ModelState) : Bool × ModelState :=
  (decide (cfg ≠ s.coeffs), { s with coeffs := cfg })

/-- The default coefficient set.  `beta1`, `beta2`, `betaStar`, `a1`, `b1`,
`c1` and the disabled rough-wall flag are documented in `kOmegaSSTLowRe.H`
and spec §6; `kappa`, the `sigma` pairs and the low-Re constants are set in
the absent `kOmegaSSTLowRe.C` and are modelled from the spec's cited Fluent
low-Re SST formulation (κ = 0.41, σω1 = 2.0, σω2 = 1.168, σk1 = 1.176,
σk2 = 1.0) and standard low-Re k–ω values for the remaining constants. -/
def defaultCoeffs (K : Type) [LinearOrderedField K] : Coeffs K where
  betaInf_ := 72 / 1000
  beta1_ := 75 / 1000
  beta2_ := 828 / 10000
  RBeta_ := 8
  RK_ := 6
  ROmega_ := 295 / 100
  betaStarInf_ := 9 / 100
  alphaStarInf_ := 1
  kappa_ := 41 / 100
  sigmaOmega1_ := 2
  sigmaOmega2_ := 1168 / 1000
  sigmaK1_ := 1176 / 1000
  sigmaK2_ := 1
  alphaZero_ := 1 / 9
  a1_ := 31 / 100
  b1_ := 1
  c1_ := 10
  F3_ := false

/-- A concrete model state used to instantiate hypotheses of proved theorems
on explicit inputs. -/
def sampleState : ModelState where
  coeffs := defaultCoeffs ℚ
  k_ := fun _ => 1 / 100
  omega_ := fun _ => 10
  nut_ := fun _ => 0

/-- Concrete per-step inputs with non-physical (negative) solver results,
used to instantiate the clipping theorem on an explicit input. -/
def sampleInputs : CorrectInputs where
  omegaSol := fun _ => -7
  kSol := fun _ => -3
  F23val := fun _ => 1
  S := fun _ => 2

/-! ## Helper lemmas -/

/-- A blend of two positive coefficients with a blending factor in [0,1] is
positive (it lies between the two branch values). -/
lemma blend_pos {F1v a b : K} (h0 : 0 ≤ F1v) (h1 : F1v ≤ 1) (ha : 0 < a) (hb : 0 < b) :
    0 < blend F1v a b := by
  unfold blend
  rcases le_total b a with hba | hab
  · nlinarith
  · nlinarith

/-- One `correct` step leaves `k_` at least `kMin` and `omega_` at least
`omegaMin` in every cell. -/
lemma correct_step_bounds (omegaMin kMin : ℚ) (s : ModelState) (ext : CorrectInputs) :
    (∀ i, kMin ≤ (correct omegaMin kMin s ext).k_ i) ∧
      (∀ i, omegaMin ≤ (correct omegaMin kMin s ext).omega_ i) :=
  ⟨fun i => le_max_right (ext.kSol i) kMin, fun i => le_max_right (ext.omegaSol i) omegaMin⟩

/-- `tanh` is nonnegative at nonnegative arguments. -/
lemma tanh_nonneg {x : ℝ} (hx : 0 ≤ x) : 0 ≤ Real.tanh x := by
  rw [Real.tanh_eq_sinh_div_cosh]
  exact div_nonneg (Real.sinh_nonneg_iff.mpr hx) (Real.cosh_pos x).le

/-- `tanh` is everywhere below 1. -/
lemma tanh_lt_one (x : ℝ) : Real.tanh x < 1 := by
  rw [Real.tanh_eq_sinh_div_cosh, div_lt_one (Real.cosh_pos x)]
  have h := Real.cosh_sub_sinh x
  have h2 := Real.exp_pos (-x)
  linarith

/-! ## Claim theorems -/

/-- C8: for every blending factor and coefficient value, the degenerate blend
of a coefficient with itself is the identity:
`blend(F1, ψ, ψ) = F1·(ψ−ψ) + ψ = ψ`. -/
theorem blend_self (F1v psi : ℚ) : blend F1v psi psi = psi := by
  simp [blend]

/-- C4: if F1 = 1 the blended coefficients β, σk, σω collapse exactly to the
k–ω branch constants β1, σk1, σω1, and if F1 = 0 they collapse exactly to the
k–ε branch constants β2, σk2, σω2, the σ's through the reciprocal blend
`1/σ = blend(F1, 1/σ1, 1/σ2)`. -/
theorem blend_endpoints (c : Coeffs ℚ) (hk1 : 0 < c.sigmaK1_) (hk2 : 0 < c.sigmaK2_)
    (hw1 : 0 < c.sigmaOmega1_) (hw2 : 0 < c.sigmaOmega2_) :
    (beta c 1 = c.beta1_ ∧ sigmaK c 1 = c.sigmaK1_ ∧ sigmaOmega c 1 = c.sigmaOmega1_) ∧
      (beta c 0 = c.beta2_ ∧ sigmaK c 0 = c.sigmaK2_ ∧ sigmaOmega c 0 = c.sigmaOmega2_) := by
  refine ⟨⟨?_, ?_, ?_⟩, ⟨?_, ?_, ?_⟩⟩ <;>
    simp [beta, betaI, sigmaK, sigmaOmega, blend]

/-- C4 witness: the endpoint collapse at the default coefficient set. -/
theorem blend_endpoints_witness :
    (beta (defaultCoeffs ℚ) 1 = (defaultCoeffs ℚ).beta1_ ∧
        sigmaK (defaultCoeffs ℚ) 1 = (defaultCoeffs ℚ).sigmaK1_ ∧
        sigmaOmega (defaultCoeffs ℚ) 1 = (defaultCoeffs ℚ).sigmaOmega1_) ∧
      (beta (defaultCoeffs ℚ) 0 = (defaultCoeffs ℚ).beta2_ ∧
        sigmaK (defaultCoeffs ℚ) 0 = (defaultCoeffs ℚ).sigmaK2_ ∧
        sigmaOmega (defaultCoeffs ℚ) 0 = (defaultCoeffs ℚ).sigmaOmega2_) :=
  blend_endpoints (defaultCoeffs ℚ) (by norm_num [defaultCoeffs]) (by norm_num [defaultCoeffs])
    (by norm_num [defaultCoeffs]) (by norm_num [defaultCoeffs])

/-- C5: for every F1 value, the effective diffusivity for k is `νt/σk(F1)+ν`
and the one for ω is `νt/σω(F1)+ν`, with the σ's obtained by blending the
reciprocals: `1/σk(F1) = blend(F1, 1/σk1, 1/σk2)` and
`1/σω(F1) = blend(F1, 1/σω1, 1/σω2)`. -/
theorem DkEff_DomegaEff_spec (c : Coeffs ℚ) (nutv nuv F1v : ℚ) :
    (DkEff c nutv nuv F1v = nutv / sigmaK c F1v + nuv ∧
        1 / sigmaK c F1v = blend F1v (1 / c.sigmaK1_) (1 / c.sigmaK2_)) ∧
      (DomegaEff c nutv nuv F1v = nutv / sigmaOmega c F1v + nuv ∧
        1 / sigmaOmega c F1v = blend F1v (1 / c.sigmaOmega1_) (1 / c.sigmaOmega2_)) := by
  refine ⟨⟨rfl, ?_⟩, ⟨rfl, ?_⟩⟩ <;> simp [sigmaK, sigmaOmega, one_div_one_div]

/-- C10: with F1 in [0,1], positive σ constants, nonnegative eddy viscosity
and positive laminar viscosity, both effective diffusivities are at least the
laminar viscosity. -/
theorem DkEff_DomegaEff_ge_nu (c : Coeffs ℚ) (nutv nuv F1v : ℚ)
    (hF0 : 0 ≤ F1v) (hF1 : F1v ≤ 1) (hk1 : 0 < c.sigmaK1_) (hk2 : 0 < c.sigmaK2_)
    (hw1 : 0 < c.sigmaOmega1_) (hw2 : 0 < c.sigmaOmega2_)
    (hnut : 0 ≤ nutv) (hnu : 0 < nuv) :
    nuv ≤ DkEff c nutv nuv F1v ∧ nuv ≤ DomegaEff c nutv nuv F1v := by
  have hbk : 0 < blend F1v (1 / c.sigmaK1_) (1 / c.sigmaK2_) :=
    blend_pos hF0 hF1 (by positivity) (by positivity)
  have hbw : 0 < blend F1v (1 / c.sigmaOmega1_) (1 / c.sigmaOmega2_) :=
    blend_pos hF0 hF1 (by positivity) (by positivity)
  have hsk : 0 ≤ nutv / sigmaK c F1v := div_nonneg hnut (by unfold sigmaK; positivity)
  have hsw : 0 ≤ nutv / sigmaOmega c F1v := div_nonneg hnut (by unfold sigmaOmega; positivity)
  constructor <;> simp only [DkEff, DomegaEff] <;> linarith

/-- C10 witness: the diffusivity floor at the default coefficients,
F1 = 1/2, νt = 3, ν = 1/1000. -/
theorem DkEff_DomegaEff_ge_nu_witness :
    (1 : ℚ) / 1000 ≤ DkEff (defaultCoeffs ℚ) 3 (1 / 1000) (1 / 2) ∧
      (1 : ℚ) / 1000 ≤ DomegaEff (defaultCoeffs ℚ) 3 (1 / 1000) (1 / 2) :=
  DkEff_DomegaEff_ge_nu (defaultCoeffs ℚ) 3 (1 / 1000) (1 / 2) (by norm_num) (by norm_num)
    (by norm_num [defaultCoeffs]) (by norm_num [defaultCoeffs]) (by norm_num [defaultCoeffs])
    (by norm_num [defaultCoeffs]) (by norm_num) (by norm_num)

/-- C1 counterexample: at the default coefficients (a1 = 0.31 > 0, b1 = 1 > 0)
with k = 1 ≥ 0, ω = 1 > 0, F23 = 0 ∈ [0,1] and S = 2 ≥ 0, the limiter gives
νt = a1·k/max(a1·ω, 0) = 1, so νt·S = 2 exceeds a1·k = 0.31: the claimed bound
`νt·S ≤ a1·k` fails for admissible inputs where the strain branch of the max
is inactive. -/
theorem nut_cap_counterexample :
    0 < (defaultCoeffs ℚ).a1_ ∧ 0 < (defaultCoeffs ℚ).b1_ ∧
      (0 : ℚ) ≤ 1 ∧ (0 : ℚ) < 1 ∧ (0 : ℚ) ≤ 0 ∧ (0 : ℚ) ≤ 1 ∧ (0 : ℚ) ≤ 2 ∧
      ¬ nut (defaultCoeffs ℚ) 1 1 0 2 * 2 ≤ (defaultCoeffs ℚ).a1_ * 1 := by
  norm_num [nut, defaultCoeffs]

/-- C1 amended: the Bradshaw cap holds with the limiter's own weighting of the
strain: `νt·(b1·F23·S) ≤ a1·k` for all admissible inputs; consequently
`νt·S ≤ a1·k` whenever `b1·F23 ≥ 1` (in particular at F23 = 1 with the default
b1 = 1, i.e. whenever the production limiter is fully active). -/
theorem nut_weighted_cap (c : Coeffs ℚ) (k omega F23v S : ℚ)
    (hk : 0 ≤ k) (homega : 0 < omega) (hS : 0 ≤ S) (hF0 : 0 ≤ F23v) (hF1 : F23v ≤ 1)
    (ha : 0 < c.a1_) (hb : 0 < c.b1_) :
    nut c k omega F23v S * (c.b1_ * F23v * S) ≤ c.a1_ * k ∧
      (1 ≤ c.b1_ * F23v → nut c k omega F23v S * S ≤ c.a1_ * k) := by
  have hd : 0 < max (c.a1_ * omega) (c.b1_ * F23v * S) :=
    lt_of_lt_of_le (mul_pos ha homega) (le_max_left _ _)
  have hnum : 0 ≤ c.a1_ * k := mul_nonneg ha.le hk
  have hnut : 0 ≤ nut c k omega F23v S := div_nonneg hnum hd.le
  have hmain : nut c k omega F23v S * (c.b1_ * F23v * S) ≤ c.a1_ * k := by
    unfold nut
    rw [div_mul_eq_mul_div, div_le_iff₀ hd]
    exact mul_le_mul_of_nonneg_left (le_max_right _ _) hnum
  refine ⟨hmain, fun hbf => ?_⟩
  calc nut c k omega F23v S * S
      ≤ nut c k omega F23v S * (c.b1_ * F23v * S) :=
        mul_le_mul_of_nonneg_left (le_mul_of_one_le_left hS hbf) hnut
    _ ≤ c.a1_ * k := hmain

/-- C1 amended, witness: the weighted cap at the default coefficients with
k = 1, ω = 1, F23 = 1, S = 5. -/
theorem nut_weighted_cap_witness :
    nut (defaultCoeffs ℚ) 1 1 1 5 * ((defaultCoeffs ℚ).b1_ * 1 * 5) ≤ (defaultCoeffs ℚ).a1_ * 1 ∧
      (1 ≤ (defaultCoeffs ℚ).b1_ * 1 →
        nut (defaultCoeffs ℚ) 1 1 1 5 * 5 ≤ (defaultCoeffs ℚ).a1_ * 1) :=
  nut_weighted_cap (defaultCoeffs ℚ) 1 1 1 5 (by norm_num) (by norm_num) (by norm_num)
    (by norm_num) (by norm_num) (by norm_num [defaultCoeffs]) (by norm_num [defaultCoeffs])

/-- C2: after every `correct()` call — hence after any nonempty sequence of
them, from any initial state and any solver outputs whatever — the stored k
field is nonnegative and the stored ω field strictly positive in every cell,
because each solve result is clipped to a positive floor before being
stored. -/
theorem correct_bounds (omegaMin kMin : ℚ) (h1 : 0 < omegaMin) (h2 : 0 < kMin)
    (s0 : ModelState) (l : List CorrectInputs) (hl : l ≠ []) :
    (∀ i, 0 ≤ (l.foldl (correct omegaMin kMin) s0).k_ i) ∧
      (∀ i, 0 < (l.foldl (correct omegaMin kMin) s0).omega_ i) := by
  induction l generalizing s0 with
  | nil => exact absurd rfl hl
  | cons a t ih =>
    cases t with
    | nil =>
      simp only [List.foldl_cons, List.foldl_nil]
      exact ⟨fun i => le_trans h2.le ((correct_step_bounds omegaMin kMin s0 a).1 i),
        fun i => lt_of_lt_of_le h1 ((correct_step_bounds omegaMin kMin s0 a).2 i)⟩
    | cons b t2 =>
      simp only [List.foldl_cons]
      simpa only [List.foldl_cons] using
        ih (correct omegaMin kMin s0 a) (List.cons_ne_nil b t2)

/-- C2 witness: one `correct` step with floors 1/1000 from a sample state and
negative solver outputs. -/
theorem correct_bounds_witness :
    (∀ i, 0 ≤ (([sampleInputs].foldl (correct (1 / 1000) (1 / 1000)) sampleState).k_ i)) ∧
      (∀ i, 0 < (([sampleInputs].foldl (correct (1 / 1000) (1 / 1000)) sampleState).omega_ i)) :=
  correct_bounds (1 / 1000) (1 / 1000) (by norm_num) (by norm_num) sampleState
    [sampleInputs] (List.cons_ne_nil sampleInputs [])

/-- C3: for every admissible per-cell input (k ≥ 0, ω > 0, y > 0, ν > 0, any
CDkω), the blending functions F1, F2, F3 and F23 all lie in [0,1]. -/
theorem blending_functions_mem_Icc (c : Coeffs ℝ) (k omega y nu CDkOmega : ℝ)
    (hk : 0 ≤ k) (homega : 0 < omega) (hy : 0 < y) (hnu : 0 < nu) :
    F1 c k omega y nu CDkOmega ∈ Set.Icc (0 : ℝ) 1 ∧
      F2 c k omega y nu ∈ Set.Icc (0 : ℝ) 1 ∧
      F3 omega y nu ∈ Set.Icc (0 : ℝ) 1 ∧
      F23 c k omega y nu ∈ Set.Icc (0 : ℝ) 1 := by
  have h1 : F1 c k omega y nu CDkOmega ∈ Set.Icc (0 : ℝ) 1 :=
    Set.mem_Icc.mpr ⟨tanh_nonneg (by positivity), (tanh_lt_one _).le⟩
  have h2 : F2 c k omega y nu ∈ Set.Icc (0 : ℝ) 1 :=
    Set.mem_Icc.mpr ⟨tanh_nonneg (by positivity), (tanh_lt_one _).le⟩
  have harg : (0 : ℝ) ≤ (min (150 * nu / (omega * y ^ 2)) 10) ^ 4 := by positivity
  have h3 : F3 omega y nu ∈ Set.Icc (0 : ℝ) 1 := by
    have hlt := tanh_lt_one ((min (150 * nu / (omega * y ^ 2)) 10) ^ 4)
    have hge := tanh_nonneg harg
    exact Set.mem_Icc.mpr ⟨by simp only [F3]; linarith, by simp only [F3]; linarith⟩
  refine ⟨h1, h2, h3, ?_⟩
  unfold F23
  split
  · exact Set.mem_Icc.mpr ⟨le_max_of_le_left (Set.mem_Icc.mp h2).1,
      max_le (Set.mem_Icc.mp h2).2 (Set.mem_Icc.mp h3).2⟩
  · exact h2

/-- C3 witness: the bounds at the default coefficients with k = 0, ω = 1,
y = 1, ν = 1, CDkω = 0. -/
theorem blending_functions_mem_Icc_witness :
    F1 (defaultCoeffs ℝ) 0 1 1 1 0 ∈ Set.Icc (0 : ℝ) 1 ∧
      F2 (defaultCoeffs ℝ) 0 1 1 1 ∈ Set.Icc (0 : ℝ) 1 ∧
      F3 1 1 1 ∈ Set.Icc (0 : ℝ) 1 ∧
      F23 (defaultCoeffs ℝ) 0 1 1 1 ∈ Set.Icc (0 : ℝ) 1 :=
  blending_functions_mem_Icc (defaultCoeffs ℝ) 0 1 1 1 0 le_rfl (by norm_num) (by norm_num)
    (by norm_num)

/-- C6: `alphaInf` is the generic blend of the branch values
`γi = βi/β*∞ − κ²/(σωi·√β*∞)`, and at the default coefficients its two branch
values agree with the documented defaults γ1 = 0.5532 and γ2 = 0.4403 to
within one half-unit of their last documented decimal. -/
theorem alphaInf_spec :
    (∀ (c : Coeffs ℝ) (F1v : ℝ),
        alphaInf c F1v =
          blend F1v
            (c.beta1_ / c.betaStarInf_ -
              c.kappa_ ^ 2 / (c.sigmaOmega1_ * Real.sqrt c.betaStarInf_))
            (c.beta2_ / c.betaStarInf_ -
              c.kappa_ ^ 2 / (c.sigmaOmega2_ * Real.sqrt c.betaStarInf_))) ∧
      |alphaInf (defaultCoeffs ℝ) 1 - 5532 / 10000| ≤ 5 / 100000 ∧
      |alphaInf (defaultCoeffs ℝ) 0 - 4403 / 10000| ≤ 5 / 100000 := by
  have hsqrt : Real.sqrt ((9 : ℝ) / 100) = 3 / 10 := by
    rw [show (9 : ℝ) / 100 = (3 / 10) ^ 2 by norm_num]
    exact Real.sqrt_sq (by norm_num)
  refine ⟨fun c F1v => rfl, ?_, ?_⟩ <;>
    · rw [abs_le]
      simp only [alphaInf, blend, defaultCoeffs]
      rw [hsqrt]
      constructor <;> norm_num

/-- C7: the `epsilon()` accessor returns the field `0.09·k·ω` per cell and,
being a `const` member, leaves the model state untouched. -/
theorem epsilon_spec (s : ModelState) :
    (∀ i, (epsilon s).1 i = 9 / 100 * s.k_ i * s.omega_ i) ∧ (epsilon s).2 = s :=
  ⟨fun _ => rfl, rfl⟩

/-- C9: `read()` leaves k, ω and νt unchanged in every case, its boolean
result says exactly whether the parsed configuration differs from the held
coefficients, and on an unchanged configuration it returns `false` and keeps
every coefficient. -/
theorem read_frame (cfg : Coeffs ℚ) (s : ModelState) :
    ((read cfg s).2.k_ = s.k_ ∧ (read cfg s).2.omega_ = s.omega_ ∧
        (read cfg s).2.nut_ = s.nut_) ∧
      ((read cfg s).1 = true ↔ cfg ≠ s.coeffs) ∧
      (cfg = s.coeffs → (read cfg s).1 = false ∧ (read cfg s).2.coeffs = s.coeffs) := by
  refine ⟨⟨rfl, rfl, rfl⟩, ?_, fun h => ⟨?_, ?_⟩⟩
  · simp [read]
  · simp [read, h]
  · simp [read, h]

/-- C9 witness: re-reading the unchanged default configuration over the
sample state changes nothing and reports no change. -/
theorem read_frame_witness :
    ((read (defaultCoeffs ℚ) sampleState).2.k_ = sampleState.k_ ∧
        (read (defaultCoeffs ℚ) sampleState).2.omega_ = sampleState.omega_ ∧
        (read (defaultCoeffs ℚ) sampleState).2.nut_ = sampleState.nut_) ∧
      ((read (defaultCoeffs ℚ) sampleState).1 = false ∧
        (read (defaultCoeffs ℚ) sampleState).2.coeffs = sampleState.coeffs) :=
  ⟨(read_frame (defaultCoeffs ℚ) sampleState).1,
    (read_frame (defaultCoeffs ℚ) sampleState).2.2 rfl⟩

end KOmegaSSTLowRe
